import Mathlib

/-!
Verification of the decision-memory (RAG) subsystem of the fudsniff
repository: a shallow embedding in Lean 4 of `backend/agents/rag_system.py`
(data model, store, metrics, similarity search, confidence adjustment,
improvement scheduler) and of the confidence application step of
`backend/agents/ai_analyzer_integration.py`, together with theorems
settling the specification's claims about them.

Modelling conventions:
* Python floats are modelled as rationals (`ℚ`); arithmetic is exact.
* Timestamps (`datetime`) are rationals measured in days; `timedelta(days=d)`
  is subtraction of `d`.
* Python dicts with fixed key sets become structures; dicts used as maps
  become association lists `List (String × ℚ)`.
* The external sentence-transformer `model.encode` is a parameter
  `encode : String → List ℚ` of every operation that embeds text.
* SQLite tables are association-list style row lists; `INSERT OR REPLACE`
  on the primary key removes the old row and appends the new one.
-/

namespace Fudsniff

/-- `SignalOutcome` enum of rag_system.py (SUCCESS/FAILURE/PARTIAL/PENDING).
The PARTIAL member is named `partialOutcome` here because its Python name is
not a legal Lean identifier. -/
inductive SignalOutcome where
  | success
  | failure
  | partialOutcome
  | pending
deriving DecidableEq, Repr

/-- String payload of each enum member (`.value` in Python). -/
def SignalOutcome.value : SignalOutcome → String
  | .success => "success"
  | .failure => "failure"
  | .partialOutcome => "partial"
  | .pending => "pending"

/-- `ImprovementType` enum of rag_system.py. -/
inductive ImprovementType where
  | prompt_adjustment
  | confidence_threshold
  | context_weighting
  | signal_filtering
deriving DecidableEq, Repr

/-- `SignalRecord` dataclass of rag_system.py. `market_data` is an opaque
key/value map, `performance_metrics` an optional key→float map, `embedding`
an optional vector. -/
structure SignalRecord where
  signal_id : String
  timestamp : ℚ
  token_symbol : String
  signal_type : String
  confidence : ℚ
  reasoning : String
  market_data : List (String × String) := []
  outcome : SignalOutcome := .pending
  performance_metrics : Option (List (String × ℚ)) := none
  embedding : Option (List ℚ) := none
deriving DecidableEq, Repr

/-- Result dictionary of `_analyze_historical_context`. The Python function
returns a dict; the `avg_similarity` key is absent exactly when no similar
signals were given, hence an `Option` field here. -/
structure ContextAnalysis where
  success_rate : ℚ
  avg_confidence : ℚ
  avg_similarity : Option ℚ := none
  total_similar : ℕ
deriving DecidableEq, Repr

/-- `_analyze_historical_context` of rag_system.py: summary statistics of the
retrieved `(record, similarity)` pairs. -/
def analyze_historical_context (similar_signals : List (SignalRecord × ℚ)) :
    ContextAnalysis :=
  if similar_signals.isEmpty then
    { success_rate := 0.5, avg_confidence := 0.5, total_similar := 0 }
  else
    let n : ℚ := similar_signals.length
    let successful_signals :=
      similar_signals.filter (fun s => s.1.outcome = SignalOutcome.success)
    { success_rate := (successful_signals.length : ℚ) / n
      avg_confidence := (similar_signals.map (fun s => s.1.confidence)).sum / n
      avg_similarity := some ((similar_signals.map Prod.snd).sum / n)
      total_similar := similar_signals.length }

/-- `_calculate_confidence_adjustment` of rag_system.py. The `dict.get`
defaults of the source (`0.5` for `avg_similarity`, which is the one key
that can be absent) are realised through `Option.getD`. -/
def calculate_confidence_adjustment (context_analysis : ContextAnalysis) : ℚ :=
  let success_rate := context_analysis.success_rate
  let avg_similarity := context_analysis.avg_similarity.getD 0.5
  let total_similar := context_analysis.total_similar
  let base_adjustment := (success_rate - 0.5) * 0.3
  let similarity_weight := min avg_similarity 0.9
  let sample_weight := min ((total_similar : ℚ) / 10) 1.0
  let final_adjustment := base_adjustment * similarity_weight * sample_weight
  max (-0.3) (min 0.3 final_adjustment)

/-- Clamp of the specification: `clamp(x, lo, hi)`. -/
def clamp (x lo hi : ℚ) : ℚ := max lo (min hi x)

/-- Modelled from the spec words of claim C1 (the refinement side): the
adjustment `clamp(base × weight, −0.3, 0.3)` with
`base = (success_rate − 0.5) × 0.3` and
`weight = min(avg_similarity, 0.9) × min(sample_count / 10, 1.0)`,
computed directly from the retrieved records. -/
def spec_adjustment (retrieved : List (SignalRecord × ℚ)) : ℚ :=
  let sample_count : ℚ := retrieved.length
  let success_rate :=
    ((retrieved.filter (fun s => s.1.outcome = SignalOutcome.success)).length : ℚ) /
      sample_count
  let avg_similarity := (retrieved.map Prod.snd).sum / sample_count
  let base := (success_rate - 0.5) * 0.3
  let weight := min avg_similarity 0.9 * min (sample_count / 10) 1.0
  clamp (base * weight) (-0.3) 0.3

/-- Confidence application step of `_apply_context_adjustments` in
ai_analyzer_integration.py: `max(0.0, min(1.0, original + adjustment))`. -/
def adjusted_confidence (original_confidence context_adjustment : ℚ) : ℚ :=
  max 0.0 (min 1.0 (original_confidence + context_adjustment))

/-- Row of the `signals` SQLite table. `outcome` is stored as the enum's
string payload, `performance_metrics` as a nullable JSON map (NULL when the
Python value is falsy), `embedding` as a nullable pickled vector. -/
structure DBSignalRow where
  signal_id : String
  timestamp : ℚ
  token_symbol : String
  signal_type : String
  confidence : ℚ
  reasoning : String
  market_data : List (String × String)
  outcome : String
  performance_metrics : Option (List (String × ℚ))
  embedding : Option (List ℚ)
deriving DecidableEq, Repr

/-- `INSERT OR REPLACE` into `signals`: the conflicting row (primary key
`signal_id`) is deleted and the new row inserted. -/
def db_upsert_signal (rows : List DBSignalRow) (row : DBSignalRow) :
    List DBSignalRow :=
  rows.filter (fun r => r.signal_id ≠ row.signal_id) ++ [row]

/-- Python truthiness of an optional metrics dict, as used by
`if performance_metrics:` — `None` and the empty dict are falsy. -/
def truthy_metrics (m : Option (List (String × ℚ))) : Bool :=
  match m with
  | none => false
  | some l => !l.isEmpty

/-- Dictionary returned by `get_performance_metrics` on a non-empty window:
the fixed keys plus the `avg_<key>` entries collected in `perf`. The Python
empty-dict return is `none` at the call sites. -/
structure PerfMetrics where
  total_signals : ℕ
  success_rate : ℚ
  avg_confidence : ℚ
  successful_signals : ℕ
  failed_signals : ℕ
  partial_signals : ℕ
  perf : List (String × ℚ)
deriving DecidableEq, Repr

/-- `ImprovementAction` dataclass of rag_system.py. `parameters` is a
key→float map for every action the scheduler emits; `performance_before` is
the metrics snapshot passed in. -/
structure ImprovementAction where
  action_id : String
  timestamp : ℚ
  improvement_type : ImprovementType
  description : String
  parameters : List (String × ℚ)
  performance_before : PerfMetrics
  performance_after : Option PerfMetrics
deriving DecidableEq, Repr

/-- Combined state of a `RAGManager`: the two SQLite tables, the in-memory
`signal_records` and `improvement_actions` lists, and the FAISS index (a
list of vectors in insertion order; `none` when never built). -/
structure RAGState where
  db_signals : List DBSignalRow := []
  db_improvements : List ImprovementAction := []
  signal_records : List SignalRecord := []
  improvement_actions : List ImprovementAction := []
  index : Option (List (List ℚ)) := none
deriving DecidableEq, Repr

/-- Text signature `f"{token_symbol} {signal_type} {reasoning}"` embedded
for a stored record. -/
def signal_text (s : SignalRecord) : String :=
  s.token_symbol ++ " " ++ s.signal_type ++ " " ++ s.reasoning

/-- Row written by `store_signal` for a record (whose embedding has already
been ensured). -/
def signal_to_row (s : SignalRecord) : DBSignalRow :=
  { signal_id := s.signal_id
    timestamp := s.timestamp
    token_symbol := s.token_symbol
    signal_type := s.signal_type
    confidence := s.confidence
    reasoning := s.reasoning
    market_data := s.market_data
    outcome := s.outcome.value
    performance_metrics :=
      if truthy_metrics s.performance_metrics then s.performance_metrics else none
    embedding := s.embedding }

/-- Embedding generation step shared by `store_signal` and `_build_index`:
a record without an embedding gets `encode` of its text signature. -/
def ensure_embedding (encode : String → List ℚ) (s : SignalRecord) :
    SignalRecord :=
  match s.embedding with
  | none => { s with embedding := some (encode (signal_text s)) }
  | some _ => s

/-- `_update_signal_embedding`: UPDATE of the `embedding` column of the row
with the given id. -/
def db_set_embedding (rows : List DBSignalRow) (id : String)
    (e : Option (List ℚ)) : List DBSignalRow :=
  rows.map (fun r => if r.signal_id = id then { r with embedding := e } else r)

/-- `_build_index`: early return when there are no records (the stale index,
if any, is kept); otherwise embed the records that lack embeddings (writing
each back to the database), then build the FAISS index from all non-null
embeddings — unless that set is empty, in which case the index is again left
untouched. -/
def build_index (encode : String → List ℚ) (st : RAGState) : RAGState :=
  if st.signal_records.isEmpty then st
  else
    let new_records := st.signal_records.map (ensure_embedding encode)
    let new_db := st.signal_records.foldl
      (fun db s =>
        if s.embedding = none then
          db_set_embedding db s.signal_id (some (encode (signal_text s)))
        else db)
      st.db_signals
    let embeddings := new_records.filterMap SignalRecord.embedding
    { st with signal_records := new_records, db_signals := new_db,
              index := if embeddings.isEmpty then st.index else some embeddings }

/-- `_incremental_index_update`: build the index if absent, else append the
new record's embedding (if it has one). -/
def incremental_index_update (encode : String → List ℚ) (st : RAGState)
    (signal : SignalRecord) : RAGState :=
  match st.index with
  | none => build_index encode st
  | some idx =>
      match signal.embedding with
      | some e => { st with index := some (idx ++ [e]) }
      | none => st

/-- `store_signal`: ensure the embedding, INSERT OR REPLACE the row, append
the record to the in-memory list (unconditionally), then update the index. -/
def store_signal (encode : String → List ℚ) (st : RAGState)
    (signal : SignalRecord) : RAGState :=
  let signal := ensure_embedding encode signal
  let st1 := { st with
    db_signals := db_upsert_signal st.db_signals (signal_to_row signal)
    signal_records := st.signal_records ++ [signal] }
  incremental_index_update encode st1 signal

/-- In-memory half of `update_signal_outcome`: the loop sets the outcome of
the first record with the given id and breaks; metrics are assigned only
when truthy. -/
def update_first_signal (id : String) (outcome : SignalOutcome)
    (performance_metrics : Option (List (String × ℚ))) :
    List SignalRecord → List SignalRecord
  | [] => []
  | s :: rest =>
      if s.signal_id = id then
        { s with outcome := outcome
                 performance_metrics :=
                   if truthy_metrics performance_metrics then performance_metrics
                   else s.performance_metrics } :: rest
      else s :: update_first_signal id outcome performance_metrics rest

/-- `update_signal_outcome` of `RAGManager`: update the first in-memory
record with the id, and UPDATE the row in the database (outcome always;
metrics column set to the JSON dump when truthy, else NULL). Unknown ids
leave everything unchanged and raise nothing. -/
def update_signal_outcome (st : RAGState) (signal_id : String)
    (outcome : SignalOutcome)
    (performance_metrics : Option (List (String × ℚ))) : RAGState :=
  { st with
    signal_records :=
      update_first_signal signal_id outcome performance_metrics st.signal_records
    db_signals := st.db_signals.map (fun r =>
      if r.signal_id = signal_id then
        { r with outcome := outcome.value
                 performance_metrics :=
                   if truthy_metrics performance_metrics then performance_metrics
                   else none }
      else r) }

/-- Python `dict[key]` access on an optional metrics map: the value of the
first binding of `key`, if present. -/
def metric_get (m : Option (List (String × ℚ))) (key : String) : Option ℚ :=
  (m.getD []).lookup key

/-- Python `dict.keys()` of an optional metrics map. -/
def metric_keys (m : Option (List (String × ℚ))) : List String :=
  (m.getD []).map Prod.fst

/-- Windowing of `get_performance_metrics`: records with
`timestamp ≥ now − days` and a non-PENDING outcome. -/
def window_resolved (st : RAGState) (now days : ℚ) : List SignalRecord :=
  st.signal_records.filter (fun s =>
    now - days ≤ s.timestamp ∧ s.outcome ≠ SignalOutcome.pending)

/-- `get_performance_metrics`: `none` models the `{}` early return on an
empty window; otherwise counts, rates, average confidence, and an
`avg_<key>` entry for each key of the *first* record that has a truthy
metrics dict, averaged over the records that contain the key. -/
def get_performance_metrics (st : RAGState) (now days : ℚ) :
    Option PerfMetrics :=
  let recent_signals := window_resolved st now days
  if recent_signals.isEmpty then none
  else
    let total_signals := recent_signals.length
    let successful_signals :=
      (recent_signals.filter (fun s => s.outcome = SignalOutcome.success)).length
    let failed_signals :=
      (recent_signals.filter (fun s => s.outcome = SignalOutcome.failure)).length
    let partial_signals :=
      (recent_signals.filter (fun s => s.outcome = SignalOutcome.partialOutcome)).length
    let avg_confidence :=
      (recent_signals.map SignalRecord.confidence).sum / (total_signals : ℚ)
    let success_rate : ℚ :=
      if 0 < total_signals then (successful_signals : ℚ) / (total_signals : ℚ) else 0
    let signals_with_metrics :=
      recent_signals.filter (fun s => truthy_metrics s.performance_metrics)
    let performance_metrics :=
      match signals_with_metrics with
      | [] => []
      | s0 :: _ =>
          (metric_keys s0.performance_metrics).filterMap (fun key =>
            let values := signals_with_metrics.filterMap
              (fun s => metric_get s.performance_metrics key)
            if values.isEmpty then none
            else some ("avg_" ++ key, values.sum / (values.length : ℚ)))
    some { total_signals, success_rate, avg_confidence, successful_signals,
           failed_signals, partial_signals, perf := performance_metrics }

/-- `INSERT OR REPLACE` into `improvements` (primary key `action_id`). -/
def db_upsert_improvement (rows : List ImprovementAction)
    (a : ImprovementAction) : List ImprovementAction :=
  rows.filter (fun r => r.action_id ≠ a.action_id) ++ [a]

/-- `store_improvement`: write the action to the database and append it to
the in-memory list. -/
def store_improvement (st : RAGState) (improvement : ImprovementAction) :
    RAGState :=
  { st with
    db_improvements := db_upsert_improvement st.db_improvements improvement
    improvement_actions := st.improvement_actions ++ [improvement] }

/-- Stand-in for the `strftime` timestamp suffix of generated action ids;
its exact text is referenced by no claim. -/
def time_tag (t : ℚ) : String := toString t.num ++ "_" ++ toString t.den

/-- `_improve_confidence_threshold`: when the average confidence of the
failures exceeds 0.7, store a CONFIDENCE_THRESHOLD action raising the
threshold to that average plus 0.1. -/
def improve_confidence_threshold (st : RAGState) (now : ℚ)
    (failures : List SignalRecord) (performance : PerfMetrics) : RAGState :=
  let failure_confidences := failures.map SignalRecord.confidence
  let avg_failure_confidence :=
    failure_confidences.sum / (failure_confidences.length : ℚ)
  if avg_failure_confidence > 0.7 then
    let new_threshold := avg_failure_confidence + 0.1
    store_improvement st
      { action_id := "confidence_threshold_" ++ time_tag now
        timestamp := now
        improvement_type := ImprovementType.confidence_threshold
        description :=
          "Increased confidence threshold due to high-confidence failures"
        parameters := [("new_threshold", new_threshold), ("old_threshold", 0.7)]
        performance_before := performance
        performance_after := none }
  else st

/-- `_improve_context_weighting`: the loop over failures does nothing
(`pass`); a CONTEXT_WEIGHTING action with fixed factor 0.8 is always
stored. -/
def improve_context_weighting (st : RAGState) (now : ℚ)
    (_failures : List SignalRecord) (performance : PerfMetrics) : RAGState :=
  store_improvement st
    { action_id := "context_weighting_" ++ time_tag now
      timestamp := now
      improvement_type := ImprovementType.context_weighting
      description := "Adjusted context weighting based on recent failures"
      parameters := [("adjustment_factor", 0.8)]
      performance_before := performance
      performance_after := none }

/-- FAILURE-outcome records of the last seven days, as gathered by
`_trigger_improvement_actions`. -/
def recent_failure_records (st : RAGState) (now : ℚ) : List SignalRecord :=
  st.signal_records.filter (fun s =>
    now - 7 ≤ s.timestamp ∧ s.outcome = SignalOutcome.failure)

/-- `_trigger_improvement_actions`: with strictly more than three recent
failures, run the confidence-threshold improvement and then the
context-weighting improvement. -/
def trigger_improvement_actions (st : RAGState) (now : ℚ)
    (recent_performance : PerfMetrics) (_older_performance : PerfMetrics) :
    RAGState :=
  let failures := recent_failure_records st now
  if failures.length > 3 then
    improve_context_weighting
      (improve_confidence_threshold st now failures recent_performance)
      now failures recent_performance
  else st

/-- `_check_for_improvements`: compare the 7-day and 14-day windows; when
both are non-empty and the success-rate drop exceeds the 0.1 threshold,
trigger the improvement actions. -/
def check_for_improvements (st : RAGState) (now : ℚ) : RAGState :=
  match get_performance_metrics st now 7, get_performance_metrics st now 14 with
  | some recent_performance, some older_performance =>
      let performance_drop :=
        older_performance.success_rate - recent_performance.success_rate
      if performance_drop > 0.1 then
        trigger_improvement_actions st now recent_performance older_performance
      else st
  | _, _ => st

/-- Size reported by `get_stats` for the index (`ntotal`, 0 when unbuilt). -/
def index_size (st : RAGState) : ℕ :=
  match st.index with
  | none => 0
  | some idx => idx.length

/-- `rebuild_index`: a full `_build_index` pass. -/
def rebuild_index (encode : String → List ℚ) (st : RAGState) : RAGState :=
  build_index encode st

/-- Python list subscript with a FAISS `int64` index: a negative index wraps
around from the end (FAISS pads missing results with −1, which Python reads
as the last element). -/
def py_get (l : List SignalRecord) (i : Int) : Option SignalRecord :=
  let j := if i < 0 then (l.length : Int) + i else i
  if 0 ≤ j then l[j.toNat]? else none

/-- Inner product of two embedding vectors (`faiss.IndexFlatIP`). -/
def inner_product (v w : List ℚ) : ℚ := (List.zipWith (· * ·) v w).sum

/-- Similarity value FAISS writes into padding slots when the index holds
fewer than `k` vectors (−FLT_MAX); no claim depends on its exact value. -/
def faiss_pad_sim : ℚ := -(340282346638528859811704183484516925440 : ℚ)

/-- Stable insertion step for descending-similarity order: the new pair goes
in front of the first entry whose similarity does not exceed it, so earlier
entries keep their place on ties. -/
def insert_by_sim (x : Int × ℚ) : List (Int × ℚ) → List (Int × ℚ)
  | [] => [x]
  | y :: t => if y.2 ≤ x.2 then x :: y :: t else y :: insert_by_sim x t

/-- Stable sort by descending similarity (insertion sort, processed from the
right so ties stay in ascending insertion order). -/
def sort_by_sim : List (Int × ℚ) → List (Int × ℚ)
  | [] => []
  | x :: t => insert_by_sim x (sort_by_sim t)

/-- `IndexFlatIP.search`: the top-`k` (index, inner product) pairs by
descending similarity, ties kept in ascending insertion order (stable),
padded to length `k` with index −1. -/
def faiss_search (index_vectors : List (List ℚ)) (query : List ℚ) (k : ℕ) :
    List (Int × ℚ) :=
  let scored := index_vectors.enum.map
    (fun p => ((p.1 : Int), inner_product query p.2))
  let sorted := sort_by_sim scored
  let top := sorted.take k
  top ++ List.replicate (k - top.length) (-1, faiss_pad_sim)

/-- Query dictionary handed to `find_similar_signals` and
`process_signal_with_context`: every key may be absent (`dict.get`). -/
structure SignalData where
  token_symbol : Option String := none
  signal_type : Option String := none
  reasoning : Option String := none
  confidence : Option ℚ := none
  market_data : Option (List (String × String)) := none
deriving DecidableEq, Repr

/-- Query text `f"{...token_symbol} {...signal_type} {...reasoning}"` with
empty-string defaults. -/
def query_text (q : SignalData) : String :=
  q.token_symbol.getD "" ++ " " ++ q.signal_type.getD "" ++ " " ++
    q.reasoning.getD ""

/-- `find_similar_signals`: empty result when the index was never built or
no records exist; otherwise embed the query, search the index, and keep the
hits whose index is below the record count (Python's comparison admits the
−1 padding, which indexes the last record). -/
def find_similar_signals (encode : String → List ℚ) (st : RAGState)
    (query_signal : SignalData) (limit : ℕ) : List (SignalRecord × ℚ) :=
  if st.index = none ∨ st.signal_records.length = 0 then []
  else
    let query_embedding := encode (query_text query_signal)
    let found := faiss_search (st.index.getD []) query_embedding limit
    found.filterMap (fun p =>
      if p.1 < (st.signal_records.length : Int) then
        (py_get st.signal_records p.1).map (fun s => (s, p.2))
      else none)

/-- Entry of the `historical_context` list reported to the caller. -/
structure HistoricalContextEntry where
  signal_id : String
  similarity : ℚ
  outcome : String
  confidence : ℚ
  timestamp : ℚ
deriving DecidableEq, Repr

/-- Enhanced signal returned by `process_signal_with_context` (the enriched
copy of the input dictionary). -/
structure EnhancedSignal where
  data : SignalData
  signal_id : String
  historical_context : List HistoricalContextEntry
  context_confidence_adjustment : ℚ
  context_analysis : ContextAnalysis
deriving DecidableEq, Repr

/-- `process_signal_with_context` of `SelfImprovingAgent`: retrieve similar
signals, analyze them, compute the adjustment, report the top five, then
store the candidate as a new PENDING record. The md5 id derived from the
data and the wall clock is passed in as `fresh_id`. -/
def process_signal_with_context (encode : String → List ℚ) (st : RAGState)
    (signal_data : SignalData) (now : ℚ) (fresh_id : String) :
    EnhancedSignal × RAGState :=
  let similar_signals := find_similar_signals encode st signal_data 10
  let context_analysis := analyze_historical_context similar_signals
  let confidence_adjustment := calculate_confidence_adjustment context_analysis
  let enhanced_signal : EnhancedSignal :=
    { data := signal_data
      signal_id := fresh_id
      historical_context := (similar_signals.take 5).map (fun s =>
        { signal_id := s.1.signal_id
          similarity := s.2
          outcome := s.1.outcome.value
          confidence := s.1.confidence
          timestamp := s.1.timestamp })
      context_confidence_adjustment := confidence_adjustment
      context_analysis := context_analysis }
  let signal_record : SignalRecord :=
    { signal_id := fresh_id
      timestamp := now
      token_symbol := signal_data.token_symbol.getD ""
      signal_type := signal_data.signal_type.getD "HOLD"
      confidence := signal_data.confidence.getD 0.5
      reasoning := signal_data.reasoning.getD ""
      market_data := signal_data.market_data.getD []
      outcome := SignalOutcome.pending
      performance_metrics := none
      embedding := none }
  (enhanced_signal, store_signal encode st signal_record)

/-- Modelled from the spec words of claim C7 (the refinement side): the
average of a metric key's values over exactly the records that have that
key. -/
def spec_key_average (records : List SignalRecord) (key : String) : ℚ :=
  let values := records.filterMap (fun s => metric_get s.performance_metrics key)
  values.sum / (values.length : ℚ)

/-- One-dimensional embedding provider used in concrete instantiations. -/
def unit_encode : String → List ℚ := fun _ => [1]

/-- Fresh `RAGManager` state: empty tables, no records, no index. -/
def empty_state : RAGState := {}

/-- Record with an out-of-range confidence — the concrete input of claim
C5. -/
def invalid_record : SignalRecord :=
  { signal_id := "bad", timestamp := 0, token_symbol := "BTC",
    signal_type := "BUY", confidence := 3/2, reasoning := "overconfident" }

/-- Record stored twice in the concrete scenario of claim C4. -/
def dup_record : SignalRecord :=
  { signal_id := "dup", timestamp := 0, token_symbol := "BTC",
    signal_type := "BUY", confidence := 9/10, reasoning := "again",
    embedding := some [1] }

/-- Resolved record carrying performance metrics, used by claim C6. -/
def metrics_record : SignalRecord :=
  { signal_id := "a", timestamp := 0, token_symbol := "T",
    signal_type := "BUY", confidence := 1/2, reasoning := "",
    outcome := SignalOutcome.success,
    performance_metrics := some [("pnl", 1)] }

/-- State holding `metrics_record` in memory and in the signals table. -/
def metrics_state : RAGState :=
  { signal_records := [metrics_record],
    db_signals := [signal_to_row metrics_record] }

/-- Resolved record whose metrics dict has only key `a` (claim C7). -/
def keyed_record_a : SignalRecord :=
  { signal_id := "m1", timestamp := 0, token_symbol := "T",
    signal_type := "BUY", confidence := 1/2, reasoning := "",
    outcome := SignalOutcome.success,
    performance_metrics := some [("a", 1)] }

/-- Resolved record whose metrics dict has only key `b` (claim C7). -/
def keyed_record_b : SignalRecord :=
  { signal_id := "m2", timestamp := 0, token_symbol := "T",
    signal_type := "SELL", confidence := 1/2, reasoning := "",
    outcome := SignalOutcome.success,
    performance_metrics := some [("b", 2)] }

/-- State holding the two differently-keyed records (claim C7). -/
def keyed_state : RAGState :=
  { signal_records := [keyed_record_a, keyed_record_b] }

/-- Embedded record behind a built one-vector index (claim C9). -/
def indexed_record : SignalRecord :=
  { signal_id := "h1", timestamp := 0, token_symbol := "BTC",
    signal_type := "BUY", confidence := 3/5, reasoning := "r",
    embedding := some [1] }

/-- State whose index has been built over `indexed_record` (claim C9). -/
def indexed_state : RAGState :=
  { signal_records := [indexed_record], index := some [[1]] }

/-- Signal records of the spec's improvement scenario (claim C2): within the
last 7 days, 3 SUCCESS records and 7 FAILURE records of confidence 0.75;
7–14 days back, 9 SUCCESS records and 1 FAILURE record. -/
def scenario_records : List SignalRecord :=
  List.replicate 3
    { signal_id := "s", timestamp := -1, token_symbol := "T",
      signal_type := "BUY", confidence := 1/2, reasoning := "",
      outcome := SignalOutcome.success } ++
  List.replicate 7
    { signal_id := "f", timestamp := -1, token_symbol := "T",
      signal_type := "BUY", confidence := 3/4, reasoning := "",
      outcome := SignalOutcome.failure } ++
  List.replicate 9
    { signal_id := "o", timestamp := -10, token_symbol := "T",
      signal_type := "BUY", confidence := 1/2, reasoning := "",
      outcome := SignalOutcome.success } ++
  [{ signal_id := "of", timestamp := -10, token_symbol := "T",
     signal_type := "BUY", confidence := 1/2, reasoning := "",
     outcome := SignalOutcome.failure }]

/-- State of the improvement scenario (claim C2). -/
def scenario_state : RAGState := { signal_records := scenario_records }

/-- 7-day metrics of the scenario: 10 resolved signals, success rate 0.3. -/
def scenario_recent : PerfMetrics :=
  { total_signals := 10, success_rate := 3/10, avg_confidence := 27/40,
    successful_signals := 3, failed_signals := 7, partial_signals := 0,
    perf := [] }

/-- 14-day metrics of the scenario: 20 resolved signals, success rate 0.6. -/
def scenario_older : PerfMetrics :=
  { total_signals := 20, success_rate := 3/5, avg_confidence := 47/80,
    successful_signals := 12, failed_signals := 8, partial_signals := 0,
    perf := [] }

/-- C1: composing `_analyze_historical_context` with
`_calculate_confidence_adjustment` returns 0 on an empty retrieval and
otherwise exactly the specification's
`clamp(base × weight, −0.3, 0.3)` value. -/
theorem confidence_adjustment_matches_spec
    (similar_signals : List (SignalRecord × ℚ)) :
    calculate_confidence_adjustment (analyze_historical_context similar_signals) =
      if similar_signals.isEmpty then 0 else spec_adjustment similar_signals := by
  cases similar_signals with
  | nil =>
      simp [analyze_historical_context, calculate_confidence_adjustment]
      norm_num
  | cons p rest =>
      simp only [analyze_historical_context, calculate_confidence_adjustment,
        spec_adjustment, clamp, List.isEmpty_cons, Option.getD_some, if_neg,
        Bool.false_eq_true, not_false_iff, if_false]
      ring_nf

/-- C3: the computed adjustment always lies in [−0.3, 0.3]; applying it to an
original confidence in [0,1] yields exactly `clamp(c + a, 0, 1)`, which lies
in [0,1]. -/
theorem confidence_adjustment_bounded (context_analysis : ContextAnalysis)
    (c : ℚ) (hc0 : 0 ≤ c) (hc1 : c ≤ 1) :
    (-0.3 ≤ calculate_confidence_adjustment context_analysis ∧
      calculate_confidence_adjustment context_analysis ≤ 0.3) ∧
    adjusted_confidence c (calculate_confidence_adjustment context_analysis) =
      clamp (c + calculate_confidence_adjustment context_analysis) 0 1 ∧
    0 ≤ adjusted_confidence c (calculate_confidence_adjustment context_analysis) ∧
    adjusted_confidence c (calculate_confidence_adjustment context_analysis) ≤ 1 := by
  refine ⟨⟨le_max_left _ _, max_le (by norm_num) ?_⟩, ?_, ?_, ?_⟩
  · exact (min_le_left _ _).trans (by norm_num)
  · show max 0.0 (min 1.0 _) = max 0 (min 1 _)
    norm_num
  · show (0 : ℚ) ≤ max 0.0 _
    exact le_max_of_le_left (by norm_num)
  · exact max_le (by norm_num) ((min_le_left _ _).trans (by norm_num))

/-- C3 witness: the bounds instantiated at the neutral context analysis and
original confidence 1/2. -/
theorem confidence_adjustment_bounded_witness :
    (0 : ℚ) ≤ 1/2 ∧ (1/2 : ℚ) ≤ 1 ∧
    ((-0.3 ≤ calculate_confidence_adjustment
        { success_rate := 0.5, avg_confidence := 0.5, total_similar := 0 } ∧
      calculate_confidence_adjustment
        { success_rate := 0.5, avg_confidence := 0.5, total_similar := 0 } ≤ 0.3) ∧
    adjusted_confidence (1/2) (calculate_confidence_adjustment
        { success_rate := 0.5, avg_confidence := 0.5, total_similar := 0 }) =
      clamp ((1/2) + calculate_confidence_adjustment
        { success_rate := 0.5, avg_confidence := 0.5, total_similar := 0 }) 0 1 ∧
    0 ≤ adjusted_confidence (1/2) (calculate_confidence_adjustment
        { success_rate := 0.5, avg_confidence := 0.5, total_similar := 0 }) ∧
    adjusted_confidence (1/2) (calculate_confidence_adjustment
        { success_rate := 0.5, avg_confidence := 0.5, total_similar := 0 }) ≤ 1) :=
  ⟨by norm_num, by norm_num,
    confidence_adjustment_bounded
      { success_rate := 0.5, avg_confidence := 0.5, total_similar := 0 }
      (1/2) (by norm_num) (by norm_num)⟩

/-- Embedding generation preserves a record's id and confidence. -/
theorem ensure_embedding_key (encode : String → List ℚ) (s : SignalRecord) :
    (ensure_embedding encode s).signal_id = s.signal_id ∧
    (ensure_embedding encode s).confidence = s.confidence := by
  cases h : s.embedding <;> simp [ensure_embedding, h]

/-- Embedding generation leaves every record with a non-null embedding. -/
theorem ensure_embedding_isSome (encode : String → List ℚ) (s : SignalRecord) :
    ∃ e, (ensure_embedding encode s).embedding = some e := by
  cases h : s.embedding with
  | none => exact ⟨encode (signal_text s), by simp [ensure_embedding, h]⟩
  | some e => exact ⟨e, by simp [ensure_embedding, h]⟩

/-- Writing an embedding back to the database leaves every row's id and
confidence unchanged. -/
theorem db_set_embedding_key (rows : List DBSignalRow) (id : String)
    (e : Option (List ℚ)) :
    (db_set_embedding rows id e).map (fun r => (r.signal_id, r.confidence)) =
      rows.map (fun r => (r.signal_id, r.confidence)) := by
  rw [db_set_embedding, List.map_map]
  exact List.map_congr_left (fun r _ => by by_cases h : r.signal_id = id <;> simp [h])

/-- The embedding write-back fold of `_build_index` leaves ids and
confidences of the database rows unchanged. -/
theorem build_fold_key (encode : String → List ℚ) (l : List SignalRecord)
    (db : List DBSignalRow) :
    (l.foldl
        (fun db s =>
          if s.embedding = none then
            db_set_embedding db s.signal_id (some (encode (signal_text s)))
          else db)
        db).map (fun r => (r.signal_id, r.confidence)) =
      db.map (fun r => (r.signal_id, r.confidence)) := by
  induction l generalizing db with
  | nil => rfl
  | cons s t ih =>
      rw [List.foldl_cons, ih]
      by_cases h : s.embedding = none
      · rw [if_pos h, db_set_embedding_key]
      · rw [if_neg h]

/-- `_build_index` changes neither the ids/confidences of the in-memory
records nor those of the database rows. -/
theorem build_index_keys (encode : String → List ℚ) (st : RAGState) :
    (build_index encode st).signal_records.map (fun s => (s.signal_id, s.confidence)) =
      st.signal_records.map (fun s => (s.signal_id, s.confidence)) ∧
    (build_index encode st).db_signals.map (fun r => (r.signal_id, r.confidence)) =
      st.db_signals.map (fun r => (r.signal_id, r.confidence)) := by
  unfold build_index
  by_cases h : st.signal_records.isEmpty = true
  · rw [if_pos h]; exact ⟨rfl, rfl⟩
  · rw [if_neg h]
    constructor
    · show (st.signal_records.map (ensure_embedding encode)).map _ = _
      rw [List.map_map]
      exact List.map_congr_left (fun s _ => by
        have hk := ensure_embedding_key encode s
        simp [Function.comp, hk.1, hk.2])
    · exact build_fold_key encode st.signal_records st.db_signals

/-- `_incremental_index_update` changes neither the ids/confidences of the
in-memory records nor those of the database rows. -/
theorem incremental_keys (encode : String → List ℚ) (st : RAGState)
    (signal : SignalRecord) :
    (incremental_index_update encode st signal).signal_records.map
        (fun s => (s.signal_id, s.confidence)) =
      st.signal_records.map (fun s => (s.signal_id, s.confidence)) ∧
    (incremental_index_update encode st signal).db_signals.map
        (fun r => (r.signal_id, r.confidence)) =
      st.db_signals.map (fun r => (r.signal_id, r.confidence)) := by
  unfold incremental_index_update
  cases hidx : st.index with
  | none => exact build_index_keys encode st
  | some idx =>
      cases hemb : signal.embedding with
      | none => exact ⟨rfl, rfl⟩
      | some e => exact ⟨rfl, rfl⟩

/-- `store_signal` appends the record's (id, confidence) to the in-memory
projection and upserts it into the database projection. -/
theorem store_signal_keys (encode : String → List ℚ) (st : RAGState)
    (signal : SignalRecord) :
    (store_signal encode st signal).signal_records.map
        (fun s => (s.signal_id, s.confidence)) =
      st.signal_records.map (fun s => (s.signal_id, s.confidence)) ++
        [(signal.signal_id, signal.confidence)] ∧
    (store_signal encode st signal).db_signals.map
        (fun r => (r.signal_id, r.confidence)) =
      (st.db_signals.filter (fun r => r.signal_id ≠ signal.signal_id)).map
          (fun r => (r.signal_id, r.confidence)) ++
        [(signal.signal_id, signal.confidence)] := by
  have hk := ensure_embedding_key encode signal
  have hst : store_signal encode st signal =
      incremental_index_update encode
        { st with
          db_signals := db_upsert_signal st.db_signals
            (signal_to_row (ensure_embedding encode signal))
          signal_records := st.signal_records ++ [ensure_embedding encode signal] }
        (ensure_embedding encode signal) := rfl
  have hi := incremental_keys encode
    { st with
      db_signals := db_upsert_signal st.db_signals
        (signal_to_row (ensure_embedding encode signal))
      signal_records := st.signal_records ++ [ensure_embedding encode signal] }
    (ensure_embedding encode signal)
  rw [hst]
  constructor
  · rw [hi.1]
    simp [hk.1, hk.2]
  · rw [hi.2]
    simp [db_upsert_signal, signal_to_row, hk.1, hk.2]

/-- C8: `get_performance_metrics` on a window containing no resolved records
returns the empty result (Python returns `{}`), through the early return
that precedes every division. -/
theorem metrics_empty_window (st : RAGState) (now days : ℚ)
    (h : window_resolved st now days = []) :
    get_performance_metrics st now days = none := by
  simp [get_performance_metrics, h]

/-- C8 witness: the empty state over a 7-day window. -/
theorem metrics_empty_window_witness :
    window_resolved empty_state 0 7 = [] ∧
    get_performance_metrics empty_state 0 7 = none :=
  ⟨rfl, metrics_empty_window empty_state 0 7 rfl⟩

/-- C10: with an unbuilt index or an empty record list, the similarity
search returns the empty list — for every embedding function alike, so the
query is never embedded and no index search happens. -/
theorem find_similar_guard (encode : String → List ℚ) (st : RAGState)
    (query_signal : SignalData) (limit : ℕ)
    (h : st.index = none ∨ st.signal_records.length = 0) :
    find_similar_signals encode st query_signal limit = [] := by
  unfold find_similar_signals
  rw [if_pos h]

/-- C10 witness: the guard at the fresh state. -/
theorem find_similar_guard_witness :
    (empty_state.index = none ∨ empty_state.signal_records.length = 0) ∧
    find_similar_signals unit_encode empty_state {} 10 = [] :=
  ⟨Or.inl rfl, find_similar_guard unit_encode empty_state {} 10 (Or.inl rfl)⟩

/-- C5 amended: `store_signal` performs no validation — a record whose
confidence lies outside [0,1] is persisted all the same: a row with its id
and the unchanged confidence is upserted into the signals table and the
record is appended to the in-memory collection. -/
theorem store_accepts_invalid_confidence (encode : String → List ℚ)
    (st : RAGState) (signal : SignalRecord)
    (h : signal.confidence < 0 ∨ 1 < signal.confidence) :
    (∃ r ∈ (store_signal encode st signal).db_signals,
        r.signal_id = signal.signal_id ∧ r.confidence = signal.confidence) ∧
    ∃ s ∈ (store_signal encode st signal).signal_records,
        s.signal_id = signal.signal_id ∧ s.confidence = signal.confidence := by
  obtain ⟨hrec, hdb⟩ := store_signal_keys encode st signal
  constructor
  · have hmem : (signal.signal_id, signal.confidence) ∈
        (store_signal encode st signal).db_signals.map
          (fun r => (r.signal_id, r.confidence)) := by
      rw [hdb]
      exact List.mem_append_right _ (List.mem_singleton.mpr rfl)
    obtain ⟨r, hr, hkey⟩ := List.mem_map.mp hmem
    exact ⟨r, hr, congrArg Prod.fst hkey, congrArg Prod.snd hkey⟩
  · have hmem : (signal.signal_id, signal.confidence) ∈
        (store_signal encode st signal).signal_records.map
          (fun s => (s.signal_id, s.confidence)) := by
      rw [hrec]
      exact List.mem_append_right _ (List.mem_singleton.mpr rfl)
    obtain ⟨s, hs, hkey⟩ := List.mem_map.mp hmem
    exact ⟨s, hs, congrArg Prod.fst hkey, congrArg Prod.snd hkey⟩

/-- C5 witness: the invalid record persisted into the fresh state. -/
theorem store_accepts_invalid_confidence_witness :
    (invalid_record.confidence < 0 ∨ 1 < invalid_record.confidence) ∧
    ((∃ r ∈ (store_signal unit_encode empty_state invalid_record).db_signals,
        r.signal_id = invalid_record.signal_id ∧
        r.confidence = invalid_record.confidence) ∧
    ∃ s ∈ (store_signal unit_encode empty_state invalid_record).signal_records,
        s.signal_id = invalid_record.signal_id ∧
        s.confidence = invalid_record.confidence) :=
  ⟨Or.inr (by norm_num [invalid_record]),
    store_accepts_invalid_confidence unit_encode empty_state invalid_record
      (Or.inr (by norm_num [invalid_record]))⟩

/-- C5 counterexample: the record with confidence 1.5 is not rejected —
after `store_signal` the signals table and the in-memory list each hold it
and the index indexes it. -/
theorem store_validation_counterexample :
    (store_signal unit_encode empty_state invalid_record).db_signals.map
        DBSignalRow.confidence = [3/2] ∧
    (store_signal unit_encode empty_state invalid_record).signal_records.map
        SignalRecord.confidence = [3/2] ∧
    index_size (store_signal unit_encode empty_state invalid_record) = 1 := by
  refine ⟨?_, ?_, ?_⟩ <;> with_unfolding_all rfl

/-- The in-memory update loop is the identity when no record has the id. -/
theorem update_first_signal_not_found (id : String) (o : SignalOutcome)
    (m : Option (List (String × ℚ))) (l : List SignalRecord)
    (h : ∀ s ∈ l, s.signal_id ≠ id) :
    update_first_signal id o m l = l := by
  induction l with
  | nil => rfl
  | cons s t ih =>
      simp only [update_first_signal]
      rw [if_neg (h s (List.mem_cons_self s t)),
        ih (fun x hx => h x (List.mem_cons_of_mem s hx))]

/-- Two in-memory updates of the same id collapse to the last when its
metrics argument is truthy. -/
theorem update_first_signal_twice (id : String) (o o2 : SignalOutcome)
    (m m2 : Option (List (String × ℚ))) (l : List SignalRecord)
    (h2 : truthy_metrics m2 = true) :
    update_first_signal id o2 m2 (update_first_signal id o m l) =
      update_first_signal id o2 m2 l := by
  induction l with
  | nil => rfl
  | cons s t ih =>
      by_cases h : s.signal_id = id
      · simp [update_first_signal, h, h2]
      · simp only [update_first_signal, if_neg h, ih]

/-- C6 amended: `update_signal_outcome` on an unknown id is a silent no-op
(no NotFoundError exists); on repeated calls the outcome follows last-write-
wins, and so do the metrics whenever the later call passes a truthy
(non-null, non-empty) metrics map. -/
theorem update_outcome_noop_and_overwrite (st : RAGState) (id : String)
    (o o2 : SignalOutcome) (m m2 : Option (List (String × ℚ))) :
    ((∀ s ∈ st.signal_records, s.signal_id ≠ id) →
      (∀ r ∈ st.db_signals, r.signal_id ≠ id) →
      update_signal_outcome st id o m = st) ∧
    (truthy_metrics m2 = true →
      update_signal_outcome (update_signal_outcome st id o m) id o2 m2 =
        update_signal_outcome st id o2 m2) := by
  constructor
  · intro hmem hdb
    unfold update_signal_outcome
    rw [update_first_signal_not_found _ _ _ _ hmem]
    have hmap : st.db_signals.map (fun r =>
        if r.signal_id = id then
          { r with outcome := o.value
                   performance_metrics :=
                     if truthy_metrics m then m else none }
        else r) = st.db_signals.map (fun r => r) :=
      List.map_congr_left (fun r hr => if_neg (hdb r hr))
    rw [hmap, List.map_id']
  · intro h2
    unfold update_signal_outcome
    rw [update_first_signal_twice _ _ _ _ _ _ h2, List.map_map]
    have hmap : ∀ r : DBSignalRow,
        ((fun r => if r.signal_id = id then
            { r with outcome := o2.value
                     performance_metrics :=
                       if truthy_metrics m2 = true then m2 else none }
          else r) ∘ (fun r => if r.signal_id = id then
            { r with outcome := o.value
                     performance_metrics :=
                       if truthy_metrics m = true then m else none }
          else r)) r =
        (fun r : DBSignalRow => if r.signal_id = id then
            { r with outcome := o2.value
                     performance_metrics :=
                       if truthy_metrics m2 = true then m2 else none }
          else r) r := by
      intro r
      by_cases h : r.signal_id = id <;> simp [h]
    rw [List.map_congr_left (fun r _ => hmap r)]

/-- C6 counterexample: the update on an unknown id silently returns with the
state unchanged instead of failing with NotFoundError, and on a known id an
update without metrics keeps the old metrics in memory while nulling them in
the database — no uniform last-write-wins for metrics. -/
theorem update_outcome_counterexample :
    update_signal_outcome empty_state "missing" SignalOutcome.success none =
      empty_state ∧
    (update_signal_outcome metrics_state "a" SignalOutcome.failure
        none).signal_records.map SignalRecord.performance_metrics =
      [some [("pnl", 1)]] ∧
    (update_signal_outcome metrics_state "a" SignalOutcome.failure
        none).db_signals.map DBSignalRow.performance_metrics = [none] := by
  refine ⟨?_, ?_, ?_⟩ <;> with_unfolding_all rfl

/-- Filtering a mapped list counts the same as filtering the original list
by the composed predicate. -/
theorem filter_length_map {α β : Type} (l : List α) (f : α → β) (p : β → Bool) :
    ((l.map f).filter p).length = (l.filter (fun a => p (f a))).length := by
  induction l with
  | nil => rfl
  | cons a t ih => by_cases h : p (f a) = true <;> simp [h, ih]

/-- Embedding every record of a list leaves no record without embedding, so
`filterMap`-collecting the embeddings keeps the length. -/
theorem ensure_filterMap_length (encode : String → List ℚ)
    (l : List SignalRecord) :
    ((l.map (ensure_embedding encode)).filterMap SignalRecord.embedding).length =
      l.length := by
  induction l with
  | nil => rfl
  | cons s t ih =>
      obtain ⟨e, he⟩ := ensure_embedding_isSome encode s
      simp only [List.map_cons, List.filterMap_cons, he, List.length_cons, ih]

/-- C4 amended: storing the same record twice leaves exactly one row with
its id in the signals table, but two entries with its id in the in-memory
collection (the second `store` appends a duplicate); after a subsequent full
rebuild the index holds exactly as many vectors as there are in-memory
records with a non-null embedding. -/
theorem store_twice_duplicates_memory (encode : String → List ℚ)
    (st : RAGState) (signal : SignalRecord)
    (hmem : ∀ s ∈ st.signal_records, s.signal_id ≠ signal.signal_id) :
    ((store_signal encode (store_signal encode st signal)
          signal).db_signals.filter
        (fun r => r.signal_id = signal.signal_id)).length = 1 ∧
    ((store_signal encode (store_signal encode st signal)
          signal).signal_records.filter
        (fun s => s.signal_id = signal.signal_id)).length = 2 ∧
    index_size (rebuild_index encode
        (store_signal encode (store_signal encode st signal) signal)) =
      ((rebuild_index encode
          (store_signal encode (store_signal encode st signal)
            signal)).signal_records.filter
        (fun s => s.embedding ≠ none)).length := by
  obtain ⟨hm1, hd1⟩ := store_signal_keys encode st signal
  obtain ⟨hm2, hd2⟩ :=
    store_signal_keys encode (store_signal encode st signal) signal
  refine ⟨?_, ?_, ?_⟩
  · have hcount : ((store_signal encode (store_signal encode st signal)
          signal).db_signals.filter
        (fun r => r.signal_id = signal.signal_id)).length =
        (((store_signal encode (store_signal encode st signal)
            signal).db_signals.map (fun r => (r.signal_id, r.confidence))).filter
          (fun k => k.1 = signal.signal_id)).length :=
      (filter_length_map
        (store_signal encode (store_signal encode st signal) signal).db_signals
        (fun r => (r.signal_id, r.confidence))
        (fun k => decide (k.1 = signal.signal_id))).symm
    rw [hcount, hd2, List.filter_append]
    have hzero : ((((store_signal encode st signal).db_signals.filter
          (fun r => r.signal_id ≠ signal.signal_id)).map
            (fun r => (r.signal_id, r.confidence))).filter
          (fun k => k.1 = signal.signal_id)) = [] := by
      rw [List.filter_eq_nil]
      intro k hk
      obtain ⟨r, hr, hrk⟩ := List.mem_map.mp hk
      have hne := (List.mem_filter.mp hr).2
      simp only [← hrk]
      simpa using hne
    rw [hzero]
    simp
  · have hcount : ((store_signal encode (store_signal encode st signal)
          signal).signal_records.filter
        (fun s => s.signal_id = signal.signal_id)).length =
        (((store_signal encode (store_signal encode st signal)
            signal).signal_records.map (fun s => (s.signal_id, s.confidence))).filter
          (fun k => k.1 = signal.signal_id)).length :=
      (filter_length_map
        (store_signal encode (store_signal encode st signal) signal).signal_records
        (fun s => (s.signal_id, s.confidence))
        (fun k => decide (k.1 = signal.signal_id))).symm
    rw [hcount, hm2, hm1, List.filter_append, List.filter_append]
    have hzero : ((st.signal_records.map (fun s => (s.signal_id, s.confidence))).filter
        (fun k => k.1 = signal.signal_id)) = [] := by
      rw [List.filter_eq_nil]
      intro k hk
      obtain ⟨s, hs, hsk⟩ := List.mem_map.mp hk
      simp only [← hsk]
      simpa using hmem s hs
    rw [hzero]
    simp
  · have hne : (store_signal encode (store_signal encode st signal)
        signal).signal_records ≠ [] := by
      intro h0
      rw [h0] at hm2
      exact absurd hm2.symm (List.append_ne_nil_of_right_ne_nil _ (by simp))
    have hE : (store_signal encode (store_signal encode st signal)
        signal).signal_records.isEmpty = false := by
      cases hW : (store_signal encode (store_signal encode st signal)
          signal).signal_records with
      | nil => exact absurd hW hne
      | cons a t => rfl
    unfold rebuild_index build_index
    rw [hE]
    have hlen := ensure_filterMap_length encode
      (store_signal encode (store_signal encode st signal) signal).signal_records
    have hEmb : ((store_signal encode (store_signal encode st signal)
        signal).signal_records.map (ensure_embedding encode)).filterMap
          SignalRecord.embedding ≠ [] := by
      intro h0
      rw [h0] at hlen
      exact hne (List.eq_nil_of_length_eq_zero hlen.symm)
    have hEmbE : (((store_signal encode (store_signal encode st signal)
        signal).signal_records.map (ensure_embedding encode)).filterMap
          SignalRecord.embedding).isEmpty = false := by
      cases hW : ((store_signal encode (store_signal encode st signal)
          signal).signal_records.map (ensure_embedding encode)).filterMap
            SignalRecord.embedding with
      | nil => exact absurd hW hEmb
      | cons a t => rfl
    simp only [Bool.false_eq_true, if_false, hEmbE, index_size]
    have hall : ((store_signal encode (store_signal encode st signal)
        signal).signal_records.map (ensure_embedding encode)).filter
          (fun s => s.embedding ≠ none) =
        (store_signal encode (store_signal encode st signal)
          signal).signal_records.map (ensure_embedding encode) := by
      rw [List.filter_eq_self]
      intro s hs
      obtain ⟨s0, _, hs0⟩ := List.mem_map.mp hs
      obtain ⟨e, he⟩ := ensure_embedding_isSome encode s0
      rw [← hs0]
      simp [he]
    rw [hall, hlen, List.length_map]

/-- C4 counterexample: after storing `dup_record` twice the in-memory list
holds its id twice, not once (the database does hold it once). -/
theorem store_twice_counterexample :
    ¬ (((store_signal unit_encode
          (store_signal unit_encode empty_state dup_record)
          dup_record).signal_records.filter
        (fun s => s.signal_id = "dup")).length = 1) :=
  of_decide_eq_true (by with_unfolding_all rfl)

/-- C4 witness: the duplicate-store scenario run from the fresh state. -/
theorem store_twice_duplicates_memory_witness :
    ((store_signal unit_encode (store_signal unit_encode empty_state dup_record)
          dup_record).db_signals.filter
        (fun r => r.signal_id = dup_record.signal_id)).length = 1 ∧
    ((store_signal unit_encode (store_signal unit_encode empty_state dup_record)
          dup_record).signal_records.filter
        (fun s => s.signal_id = dup_record.signal_id)).length = 2 ∧
    index_size (rebuild_index unit_encode
        (store_signal unit_encode (store_signal unit_encode empty_state dup_record)
          dup_record)) =
      ((rebuild_index unit_encode
          (store_signal unit_encode (store_signal unit_encode empty_state dup_record)
            dup_record)).signal_records.filter
        (fun s => s.embedding ≠ none)).length :=
  store_twice_duplicates_memory unit_encode empty_state dup_record
    (fun s hs => nomatch hs)

/-- A key appearing among an association list's keys has a lookup value. -/
theorem lookup_isSome_of_mem_keys (l : List (String × ℚ)) (key : String)
    (h : key ∈ l.map Prod.fst) : ∃ v, l.lookup key = some v := by
  induction l with
  | nil => cases h
  | cons p t ih =>
      obtain ⟨k, v⟩ := p
      by_cases hp : key = k
      · exact ⟨v, by simp [List.lookup, hp]⟩
      · obtain h | h := List.mem_cons.mp h
        · exact absurd h hp
        · obtain ⟨w, hw⟩ := ih h
          have hbeq : (key == k) = false := beq_eq_false_iff_ne.mpr hp
          exact ⟨w, by simp [List.lookup, hbeq, hw]⟩

/-- A record whose metrics dict is falsy yields no value for any key. -/
theorem metric_get_none_of_not_truthy (m : Option (List (String × ℚ)))
    (key : String) (h : truthy_metrics m = false) :
    metric_get m key = none := by
  cases m with
  | none => rfl
  | some l =>
      cases l with
      | nil => rfl
      | cons p t => simp [truthy_metrics] at h

/-- Restricting to truthy-metrics records drops no record that carries a
value for the key. -/
theorem filterMap_metric_filter (l : List SignalRecord) (key : String) :
    ((l.filter (fun s => truthy_metrics s.performance_metrics)).filterMap
        (fun s => metric_get s.performance_metrics key)) =
      l.filterMap (fun s => metric_get s.performance_metrics key) := by
  induction l with
  | nil => rfl
  | cons s t ih =>
      by_cases h : truthy_metrics s.performance_metrics = true
      · simp only [List.filter_cons, h, if_true, List.filterMap_cons, ih]
      · have hf : truthy_metrics s.performance_metrics = false := by
          simpa using h
        have hnone := metric_get_none_of_not_truthy s.performance_metrics key hf
        simp only [List.filter_cons, hf, Bool.false_eq_true, if_false,
          List.filterMap_cons, hnone, ih]

/-- C7 amended: the metrics result carries an `avg_<key>` entry for every
key of the first windowed resolved record that has a truthy metrics dict
(keys appearing only on later records are dropped), and that entry is the
average of the key's values over exactly the windowed resolved records that
have the key. -/
theorem metrics_first_record_key_average (st : RAGState) (now days : ℚ)
    (s0 : SignalRecord) (rest : List SignalRecord) (key : String)
    (hswm : (window_resolved st now days).filter
        (fun s => truthy_metrics s.performance_metrics) = s0 :: rest)
    (hkey : key ∈ metric_keys s0.performance_metrics) :
    ("avg_" ++ key, spec_key_average (window_resolved st now days) key) ∈
      ((get_performance_metrics st now days).map PerfMetrics.perf).getD [] := by
  have hne : window_resolved st now days ≠ [] := by
    intro h0
    rw [h0] at hswm
    exact absurd hswm (by simp)
  have hE : (window_resolved st now days).isEmpty = false := by
    cases hW : window_resolved st now days with
    | nil => exact absurd hW hne
    | cons a t => rfl
  obtain ⟨v, hv⟩ := lookup_isSome_of_mem_keys
    (s0.performance_metrics.getD []) key hkey
  have hget : metric_get s0.performance_metrics key = some v := hv
  have hs0 : s0 ∈ window_resolved st now days := by
    have : s0 ∈ (window_resolved st now days).filter
        (fun s => truthy_metrics s.performance_metrics) := by
      rw [hswm]; exact List.mem_cons_self s0 rest
    exact (List.mem_filter.mp this).1
  have hvmem : v ∈ (window_resolved st now days).filterMap
      (fun s => metric_get s.performance_metrics key) :=
    List.mem_filterMap.mpr ⟨s0, hs0, hget⟩
  have hvne : ((window_resolved st now days).filterMap
      (fun s => metric_get s.performance_metrics key)).isEmpty = false := by
    cases hW : (window_resolved st now days).filterMap
        (fun s => metric_get s.performance_metrics key) with
    | nil => rw [hW] at hvmem; cases hvmem
    | cons a t => rfl
  have hvals : (s0 :: rest).filterMap
      (fun s => metric_get s.performance_metrics key) =
      (window_resolved st now days).filterMap
        (fun s => metric_get s.performance_metrics key) := by
    rw [← hswm]
    exact filterMap_metric_filter _ key
  simp only [get_performance_metrics, hE, Bool.false_eq_true, if_false, hswm,
    Option.map_some', Option.getD_some]
  refine List.mem_filterMap.mpr ⟨key, hkey, ?_⟩
  rw [hvals, if_neg (by rw [hvne]; exact Bool.false_ne_true)]
  rfl

/-- C7 counterexample: key `b` is present on a windowed resolved record, yet
the metrics result has no `avg_b` entry — only the first record's keys make
it into the result. -/
theorem metrics_key_dropped_counterexample :
    metric_get keyed_record_b.performance_metrics "b" = some 2 ∧
    keyed_record_b ∈ window_resolved keyed_state 0 7 ∧
    (((get_performance_metrics keyed_state 0 7).map
        PerfMetrics.perf).getD []).lookup "avg_b" = none ∧
    ((get_performance_metrics keyed_state 0 7).map PerfMetrics.perf).getD [] =
      [("avg_a", 1)] := by
  refine ⟨?_, ?_, ?_, ?_⟩
  · with_unfolding_all rfl
  · exact of_decide_eq_true (by with_unfolding_all rfl)
  · with_unfolding_all rfl
  · with_unfolding_all rfl

/-- C7 witness: key `a` of the first record of the two-record window. -/
theorem metrics_first_record_key_average_witness :
    (window_resolved keyed_state 0 7).filter
        (fun s => truthy_metrics s.performance_metrics) =
      keyed_record_a :: [keyed_record_b] ∧
    "a" ∈ metric_keys keyed_record_a.performance_metrics ∧
    ("avg_" ++ "a", spec_key_average (window_resolved keyed_state 0 7) "a") ∈
      ((get_performance_metrics keyed_state 0 7).map PerfMetrics.perf).getD [] :=
  ⟨by with_unfolding_all rfl,
    of_decide_eq_true (by with_unfolding_all rfl),
    metrics_first_record_key_average keyed_state 0 7 keyed_record_a
      [keyed_record_b] "a" (by with_unfolding_all rfl)
      (of_decide_eq_true (by with_unfolding_all rfl))⟩

/-- Python subscripting returns a member of the list. -/
theorem py_get_mem (l : List SignalRecord) (i : Int) (s : SignalRecord)
    (h : py_get l i = some s) : s ∈ l := by
  simp only [py_get] at h
  by_cases hneg : i < 0
  · rw [if_pos hneg] at h
    by_cases hj : (0 : Int) ≤ (l.length : Int) + i
    · rw [if_pos hj] at h
      exact List.getElem?_mem h
    · rw [if_neg hj] at h
      cases h
  · rw [if_neg hneg] at h
    by_cases hj : (0 : Int) ≤ i
    · rw [if_pos hj] at h
      exact List.getElem?_mem h
    · rw [if_neg hj] at h
      cases h

/-- Every pair returned by `find_similar_signals` carries a record of the
store it searched. -/
theorem find_similar_mem (encode : String → List ℚ) (st : RAGState)
    (q : SignalData) (k : ℕ) (p : SignalRecord × ℚ)
    (hp : p ∈ find_similar_signals encode st q k) :
    p.1 ∈ st.signal_records := by
  unfold find_similar_signals at hp
  by_cases hg : st.index = none ∨ st.signal_records.length = 0
  · rw [if_pos hg] at hp; cases hp
  · rw [if_neg hg] at hp
    obtain ⟨x, hx, hfx⟩ := List.mem_filterMap.mp hp
    by_cases hlt : x.1 < (st.signal_records.length : Int)
    · rw [if_pos hlt] at hfx
      obtain ⟨s, hs, hsp⟩ := Option.map_eq_some'.mp hfx
      rw [← hsp]
      exact py_get_mem _ _ _ hs
    · rw [if_neg hlt] at hfx
      cases hfx

/-- C9: the similarity search of `process_signal_with_context` runs against
the pre-call store, so every reported historical-context entry names a
pre-existing record's id; with a fresh candidate id the candidate therefore
never appears in its own reported context. -/
theorem retrieval_precedes_store (encode : String → List ℚ) (st : RAGState)
    (signal_data : SignalData) (now : ℚ) (fresh_id : String)
    (hfresh : ∀ s ∈ st.signal_records, s.signal_id ≠ fresh_id) :
    ∀ e ∈ (process_signal_with_context encode st signal_data now
        fresh_id).1.historical_context,
      e.signal_id ∈ st.signal_records.map SignalRecord.signal_id ∧
      e.signal_id ≠ fresh_id := by
  intro e he
  simp only [process_signal_with_context] at he
  obtain ⟨p, hp, hpe⟩ := List.mem_map.mp he
  have hmem : p.1 ∈ st.signal_records :=
    find_similar_mem encode st signal_data 10 p (List.mem_of_mem_take hp)
  subst hpe
  exact ⟨List.mem_map.mpr ⟨p.1, hmem, rfl⟩, hfresh p.1 hmem⟩

/-- C9 witness: over the one-record indexed state, the first reported
context entry is the pre-existing record, not the fresh candidate. -/
theorem retrieval_precedes_store_witness :
    ({ signal_id := "h1", similarity := 1, outcome := "pending",
       confidence := 3/5, timestamp := 0 } : HistoricalContextEntry) ∈
      (process_signal_with_context unit_encode indexed_state {} 1
        "fresh").1.historical_context ∧
    ("h1" ∈ indexed_state.signal_records.map SignalRecord.signal_id ∧
      "h1" ≠ "fresh") :=
  ⟨of_decide_eq_true (by with_unfolding_all rfl),
    retrieval_precedes_store unit_encode indexed_state {} 1 "fresh"
      (of_decide_eq_true (by with_unfolding_all rfl))
      { signal_id := "h1", similarity := 1, outcome := "pending",
        confidence := 3/5, timestamp := 0 }
      (of_decide_eq_true (by with_unfolding_all rfl))⟩

/-- C2: when both metric windows are non-empty, the success-rate drop
exceeds the 0.1 threshold, strictly more than three FAILURE records fall in
the recent 7-day window, and their average confidence exceeds 0.7, the
improvement evaluation emits exactly one CONFIDENCE_THRESHOLD action (new
threshold = average failure confidence + 0.1, parameters new/old threshold
with old = 0.7) followed by exactly one CONTEXT_WEIGHTING action
(adjustment_factor 0.8), each carrying the recent metrics snapshot as
performance_before. -/
theorem scheduler_emits_both_actions (st : RAGState) (now : ℚ)
    (recent_performance older_performance : PerfMetrics)
    (hr : get_performance_metrics st now 7 = some recent_performance)
    (ho : get_performance_metrics st now 14 = some older_performance)
    (hdrop : older_performance.success_rate - recent_performance.success_rate >
      0.1)
    (hfail : (recent_failure_records st now).length > 3)
    (hconf : ((recent_failure_records st now).map SignalRecord.confidence).sum /
        (((recent_failure_records st now).map SignalRecord.confidence).length :
          ℚ) > 0.7) :
    (check_for_improvements st now).improvement_actions =
      st.improvement_actions ++
        [{ action_id := "confidence_threshold_" ++ time_tag now
           timestamp := now
           improvement_type := ImprovementType.confidence_threshold
           description :=
             "Increased confidence threshold due to high-confidence failures"
           parameters := [("new_threshold",
             ((recent_failure_records st now).map SignalRecord.confidence).sum /
               (((recent_failure_records st now).map
                 SignalRecord.confidence).length : ℚ) + 0.1),
             ("old_threshold", 0.7)]
           performance_before := recent_performance
           performance_after := none },
         { action_id := "context_weighting_" ++ time_tag now
           timestamp := now
           improvement_type := ImprovementType.context_weighting
           description := "Adjusted context weighting based on recent failures"
           parameters := [("adjustment_factor", 0.8)]
           performance_before := recent_performance
           performance_after := none }] := by
  unfold check_for_improvements
  rw [hr, ho]
  show (if older_performance.success_rate - recent_performance.success_rate >
      0.1 then
      trigger_improvement_actions st now recent_performance older_performance
    else st).improvement_actions = _
  rw [if_pos hdrop]
  unfold trigger_improvement_actions
  show (if (recent_failure_records st now).length > 3 then
      improve_context_weighting
        (improve_confidence_threshold st now (recent_failure_records st now)
          recent_performance)
        now (recent_failure_records st now) recent_performance
    else st).improvement_actions = _
  rw [if_pos hfail]
  unfold improve_confidence_threshold
  show (improve_context_weighting
      (if ((recent_failure_records st now).map SignalRecord.confidence).sum /
          (((recent_failure_records st now).map SignalRecord.confidence).length :
            ℚ) > 0.7 then
        store_improvement st
          { action_id := "confidence_threshold_" ++ time_tag now
            timestamp := now
            improvement_type := ImprovementType.confidence_threshold
            description :=
              "Increased confidence threshold due to high-confidence failures"
            parameters := [("new_threshold",
              ((recent_failure_records st now).map SignalRecord.confidence).sum /
                (((recent_failure_records st now).map
                  SignalRecord.confidence).length : ℚ) + 0.1),
              ("old_threshold", 0.7)]
            performance_before := recent_performance
            performance_after := none }
      else st)
      now (recent_failure_records st now) recent_performance).improvement_actions
      = _
  rw [if_pos hconf]
  unfold improve_context_weighting store_improvement
  simp [List.append_assoc]

/-- C2 witness: the spec scenario — 3 SUCCESS and 7 FAILURE records of
confidence 0.75 in the last 7 days, 9 SUCCESS and 1 FAILURE 7–14 days back —
yields the drop 0.3 > 0.1, 7 > 3 failures of average confidence 0.75 > 0.7,
and the two actions with new_threshold = 0.85. -/
theorem scheduler_emits_both_actions_witness :
    get_performance_metrics scenario_state 0 7 = some scenario_recent ∧
    get_performance_metrics scenario_state 0 14 = some scenario_older ∧
    scenario_older.success_rate - scenario_recent.success_rate > 0.1 ∧
    (recent_failure_records scenario_state 0).length > 3 ∧
    ((recent_failure_records scenario_state 0).map SignalRecord.confidence).sum /
        (((recent_failure_records scenario_state 0).map
          SignalRecord.confidence).length : ℚ) > 0.7 ∧
    ((recent_failure_records scenario_state 0).map SignalRecord.confidence).sum /
        (((recent_failure_records scenario_state 0).map
          SignalRecord.confidence).length : ℚ) + 0.1 = 0.85 ∧
    (check_for_improvements scenario_state 0).improvement_actions =
      scenario_state.improvement_actions ++
        [{ action_id := "confidence_threshold_" ++ time_tag 0
           timestamp := 0
           improvement_type := ImprovementType.confidence_threshold
           description :=
             "Increased confidence threshold due to high-confidence failures"
           parameters := [("new_threshold",
             ((recent_failure_records scenario_state 0).map
                 SignalRecord.confidence).sum /
               (((recent_failure_records scenario_state 0).map
                 SignalRecord.confidence).length : ℚ) + 0.1),
             ("old_threshold", 0.7)]
           performance_before := scenario_recent
           performance_after := none },
         { action_id := "context_weighting_" ++ time_tag 0
           timestamp := 0
           improvement_type := ImprovementType.context_weighting
           description := "Adjusted context weighting based on recent failures"
           parameters := [("adjustment_factor", 0.8)]
           performance_before := scenario_recent
           performance_after := none }] :=
  ⟨by with_unfolding_all rfl,
    by with_unfolding_all rfl,
    of_decide_eq_true (by with_unfolding_all rfl),
    of_decide_eq_true (by with_unfolding_all rfl),
    of_decide_eq_true (by with_unfolding_all rfl),
    by with_unfolding_all rfl,
    scheduler_emits_both_actions scenario_state 0 scenario_recent scenario_older
      (by with_unfolding_all rfl)
      (by with_unfolding_all rfl)
      (of_decide_eq_true (by with_unfolding_all rfl))
      (of_decide_eq_true (by with_unfolding_all rfl))
      (of_decide_eq_true (by with_unfolding_all rfl))⟩

end Fudsniff
